import Mathlib

/-!
Verification of the polymarket-signal-service analysis/signaling pipeline.

Shallow embedding of the three core modules:
  * analyzer/market_analyzer.py  (MarketAnalyzer.analyze_market, scan_opportunities)
  * signals/signal_generator.py  (SignalGenerator)
  * acp/service.py               (ACPSignalService request handlers)

Modelling conventions:
  * Python floats are modelled as rationals; all price/score arithmetic in the
    source is on small decimal constants.
  * Python ints are modelled as integers; Python's int() truncation toward
    zero is the function pyInt below.
  * External effects are parameters: the market-list HTTP fetch becomes a
    `List Market` argument, and datetime.utcnow() becomes a `Clock` argument
    (call index to formatted time strings) together with a `days_until`
    oracle for the datetime difference computed in MarketAnalyzer days_until.
  * Python dict payloads returned by the service are association lists of
    JSON-like values (JVal), preserving the key order of the dict literals.
  * Python's list.sort(key=score, reverse=True) is a stable descending sort;
    it is modelled by a stable insertion sort with the same observable
    behaviour (stably sorted by opportunity_score descending).
-/

/-- JSON-like values, modelling the Python dict payloads returned by the service. -/
inductive JVal : Type where
  | null : JVal
  | str : String → JVal
  | int : ℤ → JVal
  | num : ℚ → JVal
  | list : List JVal → JVal
  | obj : List (String × JVal) → JVal

/-- A raw market record as consumed by MarketAnalyzer.analyze_market.
Fields correspond to dict keys read via market.get; `none` means the key is
absent.  `outcomes` holds the price field of each outcome dict (absent price
is `none`, read with a default of 0 in get_current_price). -/
structure Market where
  id : Option String
  question : Option String
  volume : Option ℚ
  liquidity : Option ℚ
  outcomes : List (Option ℚ)
  end_date_iso : Option String
deriving DecidableEq

/-- The analysis dict built by MarketAnalyzer.analyze_market. -/
structure OpportunityAnalysis where
  market_id : Option String
  question : Option String
  volume : ℚ
  liquidity : ℚ
  current_price : ℚ
  opportunity_score : ℚ
  recommendation : String
  reasoning : List String
deriving DecidableEq

/-- MarketAnalyzer get_current_price: price of outcomes[0], defaulting to 0
when the outcomes list is empty or the price field is absent/unparsable. -/
def get_current_price (m : Market) : ℚ :=
  match m.outcomes with
  | [] => 0
  | o :: _ => o.getD 0

/-- MarketAnalyzer.analyze_market.  `days_until` is the oracle for the
datetime computation in MarketAnalyzer days_until (days from now until the
given ISO date, 0 on parse failure).  Score rules and reason strings follow
the source line by line; the Python truthiness tests `if price and ...` and
`if ends_at:` become the explicit conditions price ≠ 0 and ends_at ≠ "". -/
def analyze_market (days_until : String → ℤ) (m : Market) : OpportunityAnalysis :=
  let volume : ℚ := m.volume.getD 0
  let liquidity : ℚ := m.liquidity.getD 0
  let price : ℚ := get_current_price m
  let s1 : ℚ × List String :=
    if volume > 1000000 then (0 + 30, ["High volume market"]) else (0, [])
  let s2 : ℚ × List String :=
    if liquidity > 100000 then (s1.1 + 20, s1.2 ++ ["Good liquidity"]) else s1
  let s3 : ℚ × List String :=
    if price ≠ 0 ∧ 0.40 ≤ price ∧ price ≤ 0.60 then
      (s2.1 + 25, s2.2 ++ ["Fair pricing, room for movement"])
    else s2
  let s4 : ℚ × List String :=
    match m.end_date_iso with
    | none => s3
    | some d =>
      if d ≠ "" then
        let days_left := days_until d
        if 7 ≤ days_left ∧ days_left ≤ 90 then
          (s3.1 + 15, s3.2 ++ [s!"Good timeframe ({days_left} days)"])
        else s3
      else s3
  let score := s4.1
  let recommendation : String :=
    if score ≥ 70 then "STRONG BUY"
    else if score ≥ 50 then "BUY"
    else if score ≥ 30 then "WATCH"
    else "SKIP"
  { market_id := m.id
    question := m.question
    volume := volume
    liquidity := liquidity
    current_price := price
    opportunity_score := score
    recommendation := recommendation
    reasoning := s4.2 }

/-- Stable insertion of an analysis into a list sorted by score descending;
an element is placed before every later element of equal score. -/
def insert_by_score (a : OpportunityAnalysis) :
    List OpportunityAnalysis → List OpportunityAnalysis
  | [] => [a]
  | b :: rest =>
    if b.opportunity_score > a.opportunity_score then b :: insert_by_score a rest
    else a :: b :: rest

/-- Stable sort by opportunity_score descending, modelling Python's
opportunities.sort(key=score, reverse=True). -/
def sort_by_score_desc : List OpportunityAnalysis → List OpportunityAnalysis
  | [] => []
  | a :: rest => insert_by_score a (sort_by_score_desc rest)

/-- MarketAnalyzer.scan_opportunities with the external market fetch
(get_trending_markets) supplied as the `markets` argument: analyze every
market, keep those with opportunity_score ≥ min_score, sort by score
descending. -/
def scan_opportunities (days_until : String → ℤ) (markets : List Market)
    (min_score : ℤ) : List OpportunityAnalysis :=
  sort_by_score_desc
    ((markets.map (analyze_market days_until)).filter
      (fun a => decide ((min_score : ℚ) ≤ a.opportunity_score)))

/-- A generated trading signal: the signal dict built by
SignalGenerator.generate_signal, with the nested "data" dict flattened into
the data_* fields. -/
structure Signal where
  signal_id : String
  timestamp : String
  market_id : Option String
  market_question : Option String
  action : String
  side : Option String
  confidence : ℤ
  entry_price : ℚ
  target_price : Option ℚ
  stop_loss : Option ℚ
  position_size : ℚ
  reasoning : List String
  data_volume : ℚ
  data_liquidity : ℚ
  data_opportunity_score : ℚ
deriving DecidableEq

/-- Python's int() conversion: truncation toward zero. -/
def pyInt (q : ℚ) : ℤ := if 0 ≤ q then ⌊q⌋ else ⌈q⌉

/-- SignalGenerator calculate_confidence: opportunity score plus volume and
liquidity bonuses, converted with int() and capped at 100. -/
def calculate_confidence (a : OpportunityAnalysis) : ℤ :=
  let score := a.opportunity_score
  let volume := a.volume
  let liquidity := a.liquidity
  let score2 :=
    if volume > 5000000 then score + 10
    else if volume > 2000000 then score + 5
    else score
  let score3 :=
    if liquidity > 500000 then score2 + 10
    else if liquidity > 200000 then score2 + 5
    else score2
  min (pyInt score3) 100

/-- SignalGenerator determine_side. -/
def determine_side (a : OpportunityAnalysis) : String :=
  let price := a.current_price
  if price < 0.40 then "YES"
  else if price > 0.60 then "NO"
  else "YES"

/-- SignalGenerator calculate_position_size. -/
def calculate_position_size (confidence : ℤ) : ℚ :=
  if confidence ≥ 90 then 0.10
  else if confidence ≥ 80 then 0.07
  else if confidence ≥ 70 then 0.05
  else if confidence ≥ 60 then 0.03
  else 0.01

/-- Decimal digit character, as produced by Python's decimal formatting. -/
def digitChar (n : Nat) : Char := Char.ofNat (48 + n)

/-- Decimal digit rendering with explicit fuel (structural recursion). -/
def natToDigitsAux : Nat → Nat → List Char
  | 0, _ => []
  | fuel + 1, n =>
    if n < 10 then [digitChar n]
    else natToDigitsAux fuel (n / 10) ++ [digitChar (n % 10)]

/-- Decimal digit string (as a character list) of a natural number. -/
def natToDigits (n : Nat) : List Char := natToDigitsAux (n + 1) n

/-- Python format f"{n:04d}" for a natural number: the decimal digits
left-padded with zeros to width at least 4. -/
def format04 (n : Nat) : String :=
  String.mk (List.replicate (4 - (natToDigits n).length) '0' ++ natToDigits n)

/-- SignalGenerator generate_id: "SIG-" + strftime("%Y%m%d%H%M%S") + "-" +
the zero-padded running count.  The timestamp string is supplied by the
clock environment. -/
def generate_id (ts : String) (count : Nat) : String :=
  "SIG-" ++ ts ++ "-" ++ format04 count

/-- The mutable state of a SignalGenerator instance: its configured
min_confidence and the signals_generated log. -/
structure SignalGenerator where
  min_confidence : ℤ
  signals_generated : List Signal
deriving DecidableEq

/-- SignalGenerator.__init__ with the given min_confidence (source default 60). -/
def SignalGenerator.init (min_confidence : ℤ) : SignalGenerator :=
  ⟨min_confidence, []⟩

/-- Environment clock: maps the generator's running call count (the length of
signals_generated at call time) to the pair of datetime.utcnow() renderings
used by the source, (strftime "%Y%m%d%H%M%S" for the id, isoformat for the
timestamp field). -/
def Clock : Type := Nat → String × String

/-- SignalGenerator.generate_signal: builds the base SKIP signal dict,
computes confidence, and on confidence ≥ min_confidence upgrades it to a
TRADE signal with side, target/stop prices and position size; the signal is
appended to signals_generated. -/
def generate_signal (clock : Clock) (st : SignalGenerator)
    (a : OpportunityAnalysis) : Signal × SignalGenerator :=
  let n := st.signals_generated.length
  let confidence := calculate_confidence a
  let base : Signal :=
    { signal_id := generate_id (clock n).1 n
      timestamp := (clock n).2
      market_id := a.market_id
      market_question := a.question
      action := "SKIP"
      side := none
      confidence := confidence
      entry_price := a.current_price
      target_price := none
      stop_loss := none
      position_size := 0
      reasoning := a.reasoning
      data_volume := a.volume
      data_liquidity := a.liquidity
      data_opportunity_score := a.opportunity_score }
  let sig : Signal :=
    if confidence ≥ st.min_confidence then
      let side := determine_side a
      let current_price := a.current_price
      let target : ℚ :=
        if side = "YES" then min (current_price + 0.10) 0.95
        else max (current_price - 0.10) 0.05
      let stop : ℚ :=
        if side = "YES" then max (current_price - 0.05) 0.05
        else min (current_price + 0.05) 0.95
      { base with
          action := "TRADE"
          side := some side
          target_price := some target
          stop_loss := some stop
          position_size := calculate_position_size confidence }
    else base
  (sig, ⟨st.min_confidence, st.signals_generated ++ [sig]⟩)

/-- Loop body of SignalGenerator.generate_batch, with `acc` the number of
signals kept so far (len(signals) in the source before processing the next
analysis).  The break test `len(signals) >= max_signals` runs after each
append, so a kept signal is returned even when the cap is already met. -/
def generate_batch_aux (clock : Clock) :
    SignalGenerator → List OpportunityAnalysis → ℤ → Nat →
      List Signal × SignalGenerator
  | st, [], _, _ => ([], st)
  | st, a :: rest, maxS, acc =>
    let p := generate_signal clock st a
    if p.1.action = "TRADE" then
      if ((acc + 1 : Nat) : ℤ) ≥ maxS then ([p.1], p.2)
      else
        let q := generate_batch_aux clock p.2 rest maxS (acc + 1)
        (p.1 :: q.1, q.2)
    else
      let q := generate_batch_aux clock p.2 rest maxS acc
      (q.1, q.2)

/-- SignalGenerator.generate_batch (source default max_signals 5). -/
def generate_batch (clock : Clock) (st : SignalGenerator)
    (analyses : List OpportunityAnalysis) (max_signals : ℤ) :
    List Signal × SignalGenerator :=
  generate_batch_aux clock st analyses max_signals 0

/-- The generator state after a sequence of generate_signal calls. -/
def runSignals (clock : Clock) :
    SignalGenerator → List OpportunityAnalysis → SignalGenerator
  | st, [] => st
  | st, a :: rest => runSignals clock (generate_signal clock st a).2 rest

/-- The signals produced by a sequence of generate_signal calls, in call
order, with the state threaded through. -/
def runAllSignals (clock : Clock) :
    SignalGenerator → List OpportunityAnalysis → List Signal
  | _, [] => []
  | st, a :: rest =>
    (generate_signal clock st a).1 :: runAllSignals clock (generate_signal clock st a).2 rest

/-- Request parameters of the ACP service handlers: the optional market_id
and count entries of the params dict. -/
structure Params where
  market_id : Option String
  count : Option ℤ
deriving DecidableEq

/-- The per-tier minimum scan score used by both service handlers:
70 if tier == "pro" else 60 if tier == "premium" else 50. -/
def tier_min_score (tier : String) : ℤ :=
  if tier = "pro" then 70 else if tier = "premium" then 60 else 50

/-- Core of ACPSignalService get_signal: the market_id error, the scan, the
no-opportunities error, and the generation of one signal from the top-ranked
opportunity with a fresh SignalGenerator(min_confidence=min_score). -/
def get_signal_core (clock : Clock) (days_until : String → ℤ)
    (markets : List Market) (params : Params) (tier : String) :
    Except String Signal :=
  if params.market_id.isSome then
    .error "Specific market lookup not yet implemented"
  else
    let min_score := tier_min_score tier
    match scan_opportunities days_until markets min_score with
    | [] => .error "No opportunities found"
    | opp :: _ => .ok (generate_signal clock (SignalGenerator.init min_score) opp).1

/-- JSON rendering of an optional string (None becomes null). -/
def jsonOptStr (o : Option String) : JVal :=
  match o with
  | none => JVal.null
  | some s => JVal.str s

/-- JSON rendering of an optional rational (None becomes null). -/
def jsonOptNum (o : Option ℚ) : JVal :=
  match o with
  | none => JVal.null
  | some q => JVal.num q

/-- The full signal dict, with keys in the order of the dict literal in
SignalGenerator.generate_signal. -/
def signal_fields (s : Signal) : List (String × JVal) :=
  [("signal_id", JVal.str s.signal_id),
   ("timestamp", JVal.str s.timestamp),
   ("market_id", jsonOptStr s.market_id),
   ("market_question", jsonOptStr s.market_question),
   ("action", JVal.str s.action),
   ("side", jsonOptStr s.side),
   ("confidence", JVal.int s.confidence),
   ("entry_price", JVal.num s.entry_price),
   ("target_price", jsonOptNum s.target_price),
   ("stop_loss", jsonOptNum s.stop_loss),
   ("position_size", JVal.num s.position_size),
   ("reasoning", JVal.list (s.reasoning.map JVal.str)),
   ("data", JVal.obj
      [("volume", JVal.num s.data_volume),
       ("liquidity", JVal.num s.data_liquidity),
       ("opportunity_score", JVal.num s.data_opportunity_score)])]

/-- ACPSignalService get_signal: error payloads pass through; a generated
signal is redacted to five fields for the free tier, returned in full
otherwise. -/
def get_signal_endpoint (clock : Clock) (days_until : String → ℤ)
    (markets : List Market) (params : Params) (tier : String) :
    List (String × JVal) :=
  match get_signal_core clock days_until markets params tier with
  | .error e => [("error", JVal.str e)]
  | .ok signal =>
    if tier = "free" then
      [("signal_id", JVal.str signal.signal_id),
       ("market_question", jsonOptStr signal.market_question),
       ("action", JVal.str signal.action),
       ("side", jsonOptStr signal.side),
       ("confidence", JVal.int signal.confidence)]
    else signal_fields signal

/-- The tier-based clamping of the requested batch count in
ACPSignalService get_batch. -/
def clamp_count (tier : String) (count : ℤ) : ℤ :=
  if tier = "free" then min count 1
  else if tier = "premium" then min count 10
  else count

/-- The signal list computed by ACPSignalService get_batch: scan at the
tier's min score, then generate_batch with the clamped count on a fresh
SignalGenerator(min_confidence=min_score). -/
def get_batch_signals (clock : Clock) (days_until : String → ℤ)
    (markets : List Market) (params : Params) (tier : String) : List Signal :=
  let count := clamp_count tier (params.count.getD 5)
  let min_score := tier_min_score tier
  let opportunities := scan_opportunities days_until markets min_score
  (generate_batch clock (SignalGenerator.init min_score) opportunities count).1

/-- ACPSignalService get_batch: always a success payload with the count and
the signal dicts (there is no empty-result error path in the source). -/
def get_batch_endpoint (clock : Clock) (days_until : String → ℤ)
    (markets : List Market) (params : Params) (tier : String) :
    List (String × JVal) :=
  let signals := get_batch_signals clock days_until markets params tier
  [("count", JVal.int signals.length),
   ("signals", JVal.list (signals.map (fun s => JVal.obj (signal_fields s))))]

/-- ACPSignalService get_performance: static stub payload. -/
def get_performance_endpoint : List (String × JVal) :=
  [("total_signals", JVal.int 0),
   ("win_rate", JVal.num 0),
   ("avg_return", JVal.num 0),
   ("last_30_days", JVal.obj
      [("signals", JVal.int 0), ("wins", JVal.int 0), ("losses", JVal.int 0)]),
   ("note", JVal.str "Track record system coming soon")]

/-- ACPSignalService.handle_request endpoint dispatch. -/
def handle_request (clock : Clock) (days_until : String → ℤ)
    (markets : List Market) (endpoint : String) (params : Params)
    (tier : String) : List (String × JVal) :=
  if endpoint = "get_signal" then
    get_signal_endpoint clock days_until markets params tier
  else if endpoint = "get_batch" then
    get_batch_endpoint clock days_until markets params tier
  else if endpoint = "get_performance" then
    get_performance_endpoint
  else [("error", JVal.str "Unknown endpoint")]

/-!  Concrete fixtures used by the end-to-end claims. -/

/-- A fixed environment clock (every call sees the same second). -/
def clock0 : Clock := fun _ => ("20250101000000", "2025-01-01T00:00:00")

/-- Date oracle placing every end date 30 days in the future. -/
def d30 : String → ℤ := fun _ => 30

/-- The end-to-end example market: volume 2,000,000, liquidity 150,000,
current price 0.45, end date 30 days out (under the d30 oracle). -/
def m90 : Market :=
  ⟨some "mkt-1", some "Will it happen?", some 2000000, some 150000, [some 0.45],
    some "2025-01-31T00:00:00Z"⟩

/-- The analysis the pipeline computes for m90. -/
def a90 : OpportunityAnalysis := analyze_market d30 m90

/-- The signal generated from a90 by a generator with the source's default
min_confidence of 60. -/
def s90 : Signal := (generate_signal clock0 (SignalGenerator.init 60) a90).1

/-- Explicit value of a90. -/
def a90val : OpportunityAnalysis :=
  { market_id := some "mkt-1"
    question := some "Will it happen?"
    volume := 2000000
    liquidity := 150000
    current_price := 0.45
    opportunity_score := 90
    recommendation := "STRONG BUY"
    reasoning := ["High volume market", "Good liquidity",
      "Fair pricing, room for movement", "Good timeframe (30 days)"] }

lemma a90_eq : a90 = a90val := by
  norm_num [a90, analyze_market, m90, get_current_price, d30, a90val]
  simp
  constructor
  · norm_num
  · decide

/-- Explicit value of s90. -/
def s90val : Signal :=
  { signal_id := "SIG-20250101000000-0000"
    timestamp := "2025-01-01T00:00:00"
    market_id := some "mkt-1"
    market_question := some "Will it happen?"
    action := "TRADE"
    side := some "YES"
    confidence := 90
    entry_price := 0.45
    target_price := some 0.55
    stop_loss := some 0.40
    position_size := 0.10
    reasoning := ["High volume market", "Good liquidity",
      "Fair pricing, room for movement", "Good timeframe (30 days)"]
    data_volume := 2000000
    data_liquidity := 150000
    data_opportunity_score := 90 }

lemma generate_id_zero : generate_id "20250101000000" 0 = "SIG-20250101000000-0000" := by
  decide

lemma s90_eq : s90 = s90val := by
  rw [s90, a90_eq]
  norm_num [generate_signal, a90val, s90val, SignalGenerator.init,
    calculate_confidence, pyInt, determine_side, calculate_position_size,
    clock0, generate_id_zero]

/-- C1 counterexample: for the market with volume 2,000,000, liquidity
150,000, current price 0.45 and end date 30 days out, the generated signal's
confidence is 90, not 95 as claimed: the volume bonus requires volume
strictly greater than 2,000,000, so no bonus applies (the spec's worked
example contradicts its own bonus rule, which the code follows). -/
theorem c1_counterexample : s90.confidence = 90 ∧ ¬ s90.confidence = 95 := by
  rw [s90_eq]
  exact ⟨rfl, by decide⟩

/-- C1 amended: same end-to-end example with confidence corrected from 95 to
90; every other claimed value holds: score 90, recommendation STRONG BUY,
action TRADE, side YES, entry 0.45, target 0.55, stop loss 0.40, position
size 0.10 (position size ≥ 90 bracket still applies at confidence 90). -/
theorem c1_amended :
    a90.opportunity_score = 90 ∧
    a90.recommendation = "STRONG BUY" ∧
    s90.action = "TRADE" ∧
    s90.side = some "YES" ∧
    s90.confidence = 90 ∧
    s90.entry_price = 0.45 ∧
    s90.target_price = some 0.55 ∧
    s90.stop_loss = some 0.40 ∧
    s90.position_size = 0.10 := by
  rw [a90_eq, s90_eq]
  exact ⟨rfl, rfl, rfl, rfl, rfl, rfl, rfl, rfl, rfl⟩

/-- The volume bonus exactly as the claim words it. -/
def volume_bonus (a : OpportunityAnalysis) : ℚ :=
  if a.volume > 5000000 then 10 else if a.volume > 2000000 then 5 else 0

/-- The liquidity bonus exactly as the claim words it. -/
def liquidity_bonus (a : OpportunityAnalysis) : ℚ :=
  if a.liquidity > 500000 then 10 else if a.liquidity > 200000 then 5 else 0

/-- The claim's confidence formula, with "rounded" read as rounding to the
nearest integer. -/
def confidence_rounded_claim (a : OpportunityAnalysis) : ℤ :=
  min (round (a.opportunity_score + volume_bonus a + liquidity_bonus a)) 100

/-- An analysis with a fractional opportunity score. -/
def a_frac : OpportunityAnalysis :=
  ⟨none, none, 0, 0, 0.5, 50.7, "BUY", []⟩

lemma pyInt_nonneg (q : ℚ) (h : 0 ≤ q) : 0 ≤ pyInt q := by
  rw [pyInt, if_pos h]
  exact Int.floor_nonneg.mpr h

/-- C3 counterexample: at opportunity score 50.7 (no bonuses), the code's
confidence is int(50.7) = 50 while the claimed rounded value is 51: Python's
int() truncates, it does not round. -/
theorem c3_counterexample :
    calculate_confidence a_frac ≠ confidence_rounded_claim a_frac := by
  have h1 : calculate_confidence a_frac = 50 := by
    norm_num [calculate_confidence, a_frac, pyInt]
  have h2 : confidence_rounded_claim a_frac = 51 := by
    norm_num [confidence_rounded_claim, a_frac, volume_bonus, liquidity_bonus,
      round_eq]
  rw [h1, h2]
  decide

/-- C3 amended: for every analysis with non-negative score, the computed
confidence equals the score plus the volume bonus (+10 if volume > 5,000,000
else +5 if volume > 2,000,000 else 0) plus the liquidity bonus (+10 if
liquidity > 500,000 else +5 if liquidity > 200,000 else 0), truncated toward
zero (Python int(), not rounding) and clamped at 100; in particular the
confidence always lies in [0, 100]. -/
theorem c3_amended (a : OpportunityAnalysis) (h : 0 ≤ a.opportunity_score) :
    calculate_confidence a =
      min (pyInt (a.opportunity_score + volume_bonus a + liquidity_bonus a)) 100 ∧
    0 ≤ calculate_confidence a ∧ calculate_confidence a ≤ 100 := by
  have harg : ∀ q : ℚ, a.opportunity_score ≤ q → 0 ≤ pyInt q := fun q hq =>
    pyInt_nonneg q (le_trans h hq)
  simp only [calculate_confidence, volume_bonus, liquidity_bonus]
  refine ⟨?_, ?_, min_le_right _ _⟩
  · split_ifs <;> ring_nf
  · refine le_min ?_ (by norm_num)
    split_ifs <;> exact harg _ (by linarith)

/-- Witness for C3 amended at the concrete analysis a90. -/
theorem c3_witness :
    0 ≤ a90.opportunity_score ∧
    (calculate_confidence a90 =
        min (pyInt (a90.opportunity_score + volume_bonus a90 + liquidity_bonus a90)) 100 ∧
      0 ≤ calculate_confidence a90 ∧ calculate_confidence a90 ≤ 100) :=
  have h : 0 ≤ a90.opportunity_score := by rw [a90_eq]; norm_num [a90val]
  ⟨h, c3_amended a90 h⟩

/-!  Structural lemmas about generate_signal. -/

lemma generate_signal_snd (clock : Clock) (st : SignalGenerator)
    (a : OpportunityAnalysis) :
    (generate_signal clock st a).2 =
      ⟨st.min_confidence, st.signals_generated ++ [(generate_signal clock st a).1]⟩ := by
  simp only [generate_signal]

lemma generate_signal_id (clock : Clock) (st : SignalGenerator)
    (a : OpportunityAnalysis) :
    (generate_signal clock st a).1.signal_id =
      generate_id (clock st.signals_generated.length).1 st.signals_generated.length := by
  simp only [generate_signal]
  split_ifs <;> rfl

lemma generate_signal_confidence (clock : Clock) (st : SignalGenerator)
    (a : OpportunityAnalysis) :
    (generate_signal clock st a).1.confidence = calculate_confidence a := by
  simp only [generate_signal]
  split_ifs <;> rfl

lemma generate_signal_entry (clock : Clock) (st : SignalGenerator)
    (a : OpportunityAnalysis) :
    (generate_signal clock st a).1.entry_price = a.current_price := by
  simp only [generate_signal]
  split_ifs <;> rfl

lemma generate_signal_of_ge (clock : Clock) (st : SignalGenerator)
    (a : OpportunityAnalysis) (h : calculate_confidence a ≥ st.min_confidence) :
    (generate_signal clock st a).1.action = "TRADE" ∧
    (generate_signal clock st a).1.side = some (determine_side a) ∧
    (generate_signal clock st a).1.target_price =
      some (if determine_side a = "YES" then min (a.current_price + 0.10) 0.95
            else max (a.current_price - 0.10) 0.05) ∧
    (generate_signal clock st a).1.stop_loss =
      some (if determine_side a = "YES" then max (a.current_price - 0.05) 0.05
            else min (a.current_price + 0.05) 0.95) ∧
    (generate_signal clock st a).1.position_size =
      calculate_position_size (calculate_confidence a) := by
  simp only [generate_signal, if_pos h]
  exact ⟨trivial, trivial, trivial, trivial, trivial⟩

lemma generate_signal_of_lt (clock : Clock) (st : SignalGenerator)
    (a : OpportunityAnalysis) (h : ¬ calculate_confidence a ≥ st.min_confidence) :
    (generate_signal clock st a).1.action = "SKIP" ∧
    (generate_signal clock st a).1.side = none ∧
    (generate_signal clock st a).1.target_price = none ∧
    (generate_signal clock st a).1.stop_loss = none ∧
    (generate_signal clock st a).1.position_size = 0 := by
  simp only [generate_signal, if_neg h]
  exact ⟨trivial, trivial, trivial, trivial, trivial⟩

lemma determine_side_cases (a : OpportunityAnalysis) :
    determine_side a = "YES" ∨ determine_side a = "NO" := by
  simp only [determine_side]
  split_ifs <;> simp

/-- C4: for every generated signal (any generator state, any analysis, any
clock), if the action is SKIP then side, target price and stop loss are
absent and the position size is 0 — the SKIP branch of generate_signal never
touches these fields of the base dict. -/
theorem c4_skip_invariant (clock : Clock) (st : SignalGenerator)
    (a : OpportunityAnalysis)
    (h : (generate_signal clock st a).1.action = "SKIP") :
    (generate_signal clock st a).1.side = none ∧
    (generate_signal clock st a).1.target_price = none ∧
    (generate_signal clock st a).1.stop_loss = none ∧
    (generate_signal clock st a).1.position_size = 0 := by
  by_cases hc : calculate_confidence a ≥ st.min_confidence
  · exact absurd ((generate_signal_of_ge clock st a hc).1.symm.trans h) (by decide)
  · obtain ⟨-, h2, h3, h4, h5⟩ := generate_signal_of_lt clock st a hc
    exact ⟨h2, h3, h4, h5⟩

/-- An analysis whose confidence falls below the default threshold 60, so
the generated signal is a SKIP. -/
def a_low : OpportunityAnalysis :=
  ⟨none, none, 0, 0, 0.5, 0, "SKIP", []⟩

lemma a_low_skip :
    (generate_signal clock0 (SignalGenerator.init 60) a_low).1.action = "SKIP" := by
  have h : ¬ calculate_confidence a_low ≥ (SignalGenerator.init 60).min_confidence := by
    norm_num [calculate_confidence, a_low, pyInt, SignalGenerator.init]
  exact (generate_signal_of_lt clock0 _ a_low h).1

/-- Witness for C4 at a concrete SKIP signal. -/
theorem c4_witness :
    (generate_signal clock0 (SignalGenerator.init 60) a_low).1.action = "SKIP" ∧
    ((generate_signal clock0 (SignalGenerator.init 60) a_low).1.side = none ∧
      (generate_signal clock0 (SignalGenerator.init 60) a_low).1.target_price = none ∧
      (generate_signal clock0 (SignalGenerator.init 60) a_low).1.stop_loss = none ∧
      (generate_signal clock0 (SignalGenerator.init 60) a_low).1.position_size = 0) :=
  ⟨a_low_skip, c4_skip_invariant clock0 (SignalGenerator.init 60) a_low a_low_skip⟩

/-- C8: for every TRADE signal the target and stop formulas hold exactly as
stated (side YES: target = min(entry+0.10, 0.95), stop = max(entry−0.05,
0.05); side NO: target = max(entry−0.10, 0.05), stop = min(entry+0.05,
0.95)); and for any entry price in the Signal data model's domain [0, 1] the
target and the stop both lie within [0.05, 0.95]. -/
theorem c8_targets (clock : Clock) (st : SignalGenerator)
    (a : OpportunityAnalysis) (s : Signal)
    (hs : s = (generate_signal clock st a).1) (h : s.action = "TRADE") :
    (s.side = some "YES" →
      s.target_price = some (min (s.entry_price + 0.10) 0.95) ∧
      s.stop_loss = some (max (s.entry_price - 0.05) 0.05)) ∧
    (s.side = some "NO" →
      s.target_price = some (max (s.entry_price - 0.10) 0.05) ∧
      s.stop_loss = some (min (s.entry_price + 0.05) 0.95)) ∧
    (0 ≤ s.entry_price → s.entry_price ≤ 1 →
      (∀ t, s.target_price = some t → 0.05 ≤ t ∧ t ≤ 0.95) ∧
      (∀ t, s.stop_loss = some t → 0.05 ≤ t ∧ t ≤ 0.95)) := by
  subst hs
  by_cases hc : calculate_confidence a ≥ st.min_confidence
  case neg =>
    exact absurd ((generate_signal_of_lt clock st a hc).1.symm.trans h) (by decide)
  obtain ⟨-, hside, htarget, hstop, -⟩ := generate_signal_of_ge clock st a hc
  rw [hside, htarget, hstop, generate_signal_entry]
  rcases determine_side_cases a with hds | hds <;> rw [hds]
  · refine ⟨fun _ => ⟨by simp, by simp⟩, fun hno => absurd hno (by simp), ?_⟩
    intro h0 h1
    constructor
    · intro t ht
      simp only [if_pos rfl, Option.some.injEq] at ht
      subst ht
      constructor
      · exact le_min (by linarith) (by norm_num)
      · exact min_le_right _ _
    · intro t ht
      simp only [if_pos rfl, Option.some.injEq] at ht
      subst ht
      constructor
      · exact le_max_right _ _
      · exact max_le (by linarith) (by norm_num)
  · refine ⟨fun hyes => absurd hyes (by simp), fun _ => ⟨by simp, by simp⟩, ?_⟩
    intro h0 h1
    constructor
    · intro t ht
      simp only [if_neg (by decide : ¬ ("NO" : String) = "YES"), Option.some.injEq] at ht
      subst ht
      constructor
      · exact le_max_right _ _
      · exact max_le (by linarith) (by norm_num)
    · intro t ht
      simp only [if_neg (by decide : ¬ ("NO" : String) = "YES"), Option.some.injEq] at ht
      subst ht
      constructor
      · exact le_min (by linarith) (by norm_num)
      · exact min_le_right _ _

/-- A high-priced analysis: entry 0.92, high volume/liquidity bonuses. -/
def a_high : OpportunityAnalysis :=
  ⟨none, none, 6000000, 600000, 0.92, 70, "STRONG BUY", []⟩

/-- The signal generated from a_high (TRADE, side NO). -/
def s_high : Signal := (generate_signal clock0 (SignalGenerator.init 60) a_high).1

lemma a_high_conf : calculate_confidence a_high ≥ (SignalGenerator.init 60).min_confidence := by
  norm_num [calculate_confidence, a_high, pyInt, SignalGenerator.init]

lemma s_high_trade : s_high.action = "TRADE" :=
  (generate_signal_of_ge clock0 (SignalGenerator.init 60) a_high a_high_conf).1

/-- Witness for C8 at the concrete TRADE signal with entry price 0.92. -/
theorem c8_witness :
    s_high.action = "TRADE" ∧
    ((s_high.side = some "YES" →
        s_high.target_price = some (min (s_high.entry_price + 0.10) 0.95) ∧
        s_high.stop_loss = some (max (s_high.entry_price - 0.05) 0.05)) ∧
      (s_high.side = some "NO" →
        s_high.target_price = some (max (s_high.entry_price - 0.10) 0.05) ∧
        s_high.stop_loss = some (min (s_high.entry_price + 0.05) 0.95)) ∧
      (0 ≤ s_high.entry_price → s_high.entry_price ≤ 1 →
        (∀ t, s_high.target_price = some t → 0.05 ≤ t ∧ t ≤ 0.95) ∧
        (∀ t, s_high.stop_loss = some t → 0.05 ≤ t ∧ t ≤ 0.95))) :=
  ⟨s_high_trade,
    c8_targets clock0 (SignalGenerator.init 60) a_high s_high rfl s_high_trade⟩

/-!  Decoding lemmas for the zero-padded decimal id suffix. -/

/-- Numeric value of a decimal digit character. -/
def charVal (c : Char) : Nat := c.toNat - 48

/-- Decimal value of a digit string. -/
def decVal (l : List Char) : Nat := l.foldl (fun a c => a * 10 + charVal c) 0

lemma charVal_digitChar (d : Nat) (h : d < 10) : charVal (digitChar d) = d := by
  interval_cases d <;> decide

lemma decVal_append_singleton (l : List Char) (c : Char) :
    decVal (l ++ [c]) = decVal l * 10 + charVal c := by
  simp [decVal, List.foldl_append]

lemma decVal_replicate_zero_append (k : Nat) (l : List Char) :
    decVal (List.replicate k '0' ++ l) = decVal l := by
  induction k with
  | zero => rfl
  | succ k ih =>
    have : List.replicate (k + 1) '0' ++ l = '0' :: (List.replicate k '0' ++ l) := by
      simp [List.replicate_succ]
    rw [this]
    simpa [decVal] using ih

lemma decVal_natToDigitsAux (fuel : Nat) :
    ∀ n, n < 10 ^ fuel → decVal (natToDigitsAux fuel n) = n := by
  induction fuel with
  | zero =>
    intro n hn
    interval_cases n
    rfl
  | succ fuel ih =>
    intro n hn
    by_cases h10 : n < 10
    · simp [natToDigitsAux, if_pos h10, decVal, charVal_digitChar n h10]
    · rw [natToDigitsAux, if_neg h10, decVal_append_singleton,
        ih (n / 10) (by rw [pow_succ] at hn; omega),
        charVal_digitChar (n % 10) (Nat.mod_lt n (by omega))]
      omega

lemma decVal_natToDigits (n : Nat) : decVal (natToDigits n) = n := by
  have h1 : n < 10 ^ n := Nat.lt_pow_self (by omega) n
  have h2 : (10 : Nat) ^ n ≤ 10 ^ (n + 1) := Nat.pow_le_pow_right (by omega) (by omega)
  exact decVal_natToDigitsAux (n + 1) n (lt_of_lt_of_le h1 h2)

lemma decVal_format04 (n : Nat) : decVal (format04 n).data = n := by
  show decVal (List.replicate (4 - (natToDigits n).length) '0' ++ natToDigits n) = n
  rw [decVal_replicate_zero_append, decVal_natToDigits]

lemma format04_inj (m n : Nat) (h : format04 m = format04 n) : m = n := by
  have hd := congrArg String.data h
  calc m = decVal (format04 m).data := (decVal_format04 m).symm
    _ = decVal (format04 n).data := by rw [hd]
    _ = n := decVal_format04 n

lemma generate_id_inj (ts1 ts2 : String) (c1 c2 : Nat)
    (hlen : ts1.length = ts2.length)
    (h : generate_id ts1 c1 = generate_id ts2 c2) : c1 = c2 := by
  have hdata : "SIG-".data ++ (ts1.data ++ ('-' :: (format04 c1).data)) =
      "SIG-".data ++ (ts2.data ++ ('-' :: (format04 c2).data)) := by
    have hh := congrArg String.data h
    simp only [generate_id, String.data_append, List.append_assoc] at hh
    simpa using hh
  have h1 := List.append_cancel_left hdata
  obtain ⟨hts, hrest⟩ := List.append_inj h1 hlen
  have hp : (format04 c1).data = (format04 c2).data := by
    injection hrest
  exact format04_inj c1 c2 (String.ext hp)

/-!  Lemmas about generate_batch. -/

lemma generate_batch_aux_eq_take (clock : Clock) :
    ∀ (l : List OpportunityAnalysis) (st : SignalGenerator) (cap : ℤ) (acc : Nat),
      (acc : ℤ) < cap →
      (generate_batch_aux clock st l cap acc).1 =
        ((runAllSignals clock st l).filter
          (fun s => decide (s.action = "TRADE"))).take (cap - acc).toNat := by
  intro l
  induction l with
  | nil => intro st cap acc _; simp [generate_batch_aux, runAllSignals]
  | cons a rest ih =>
    intro st cap acc hacc
    simp only [generate_batch_aux, runAllSignals]
    by_cases hact : (generate_signal clock st a).1.action = "TRADE"
    · rw [if_pos hact]
      by_cases hbreak : ((acc + 1 : Nat) : ℤ) ≥ cap
      · rw [if_pos hbreak]
        have hcap : (cap - acc).toNat = 1 := by omega
        simp [List.filter_cons, hact, hcap]
      · rw [if_neg hbreak]
        have hcap : (cap - acc).toNat = (cap - (acc + 1 : Nat)).toNat + 1 := by
          push_cast
          omega
        rw [ih (generate_signal clock st a).2 cap (acc + 1) (by push_cast at hbreak ⊢; omega)]
        simp [List.filter_cons, hact, hcap, List.take_succ_cons]
    · rw [if_neg hact]
      rw [ih (generate_signal clock st a).2 cap acc hacc]
      simp [List.filter_cons, hact]

lemma generate_batch_aux_len_le_one (clock : Clock) :
    ∀ (l : List OpportunityAnalysis) (st : SignalGenerator) (cap : ℤ) (acc : Nat),
      ((acc + 1 : Nat) : ℤ) ≥ cap →
      (generate_batch_aux clock st l cap acc).1.length ≤ 1 := by
  intro l
  induction l with
  | nil => intro st cap acc _; simp [generate_batch_aux]
  | cons a rest ih =>
    intro st cap acc hacc
    simp only [generate_batch_aux]
    by_cases hact : (generate_signal clock st a).1.action = "TRADE"
    · rw [if_pos hact, if_pos hacc]
      simp
    · rw [if_neg hact]
      exact ih (generate_signal clock st a).2 cap acc hacc

lemma generate_batch_aux_trade (clock : Clock) :
    ∀ (l : List OpportunityAnalysis) (st : SignalGenerator) (cap : ℤ) (acc : Nat)
      (s : Signal), s ∈ (generate_batch_aux clock st l cap acc).1 →
      s.action = "TRADE" := by
  intro l
  induction l with
  | nil => intro st cap acc s hs; simp [generate_batch_aux] at hs
  | cons a rest ih =>
    intro st cap acc s hs
    simp only [generate_batch_aux] at hs
    by_cases hact : (generate_signal clock st a).1.action = "TRADE"
    · rw [if_pos hact] at hs
      by_cases hbreak : ((acc + 1 : Nat) : ℤ) ≥ cap
      · rw [if_pos hbreak] at hs
        simp at hs
        rwa [hs]
      · rw [if_neg hbreak] at hs
        simp at hs
        rcases hs with hs | hs
        · rwa [hs]
        · exact ih _ cap (acc + 1) s hs
    · rw [if_neg hact] at hs
      exact ih _ cap acc s hs

lemma generate_batch_aux_log (clock : Clock) :
    ∀ (l : List OpportunityAnalysis) (st : SignalGenerator) (cap : ℤ) (acc : Nat),
      (((generate_batch_aux clock st l cap acc).1.length + acc : Nat) : ℤ) < cap →
      (generate_batch_aux clock st l cap acc).2.signals_generated.length =
        st.signals_generated.length + l.length := by
  intro l
  induction l with
  | nil => intro st cap acc _; simp [generate_batch_aux]
  | cons a rest ih =>
    intro st cap acc hlen
    have hstep : (generate_signal clock st a).2.signals_generated.length =
        st.signals_generated.length + 1 := by
      rw [generate_signal_snd]
      simp
    simp only [generate_batch_aux] at hlen ⊢
    by_cases hact : (generate_signal clock st a).1.action = "TRADE"
    · rw [if_pos hact] at hlen ⊢
      by_cases hbreak : ((acc + 1 : Nat) : ℤ) ≥ cap
      · rw [if_pos hbreak] at hlen
        simp at hlen
        omega
      · rw [if_neg hbreak] at hlen ⊢
        simp only [List.length_cons] at hlen
        have := ih (generate_signal clock st a).2 cap (acc + 1) (by push_cast at hlen ⊢; omega)
        simp only [this, hstep, List.length_cons]
        omega
    · rw [if_neg hact] at hlen ⊢
      have := ih (generate_signal clock st a).2 cap acc (by push_cast at hlen ⊢; omega)
      simp only [this, hstep, List.length_cons]
      omega

lemma a90_conf : calculate_confidence a90 = 90 := by
  rw [a90_eq]
  norm_num [calculate_confidence, a90val, pyInt]

/-- C7 counterexample: with cap 0 and a single TRADE-yielding analysis, the
loop appends the signal before testing the cap, so one signal is returned
even though the claimed behaviour (stop as soon as the kept count reaches
the cap) would return none: the claimed take-the-cap equation fails at
cap 0. -/
theorem c7_counterexample :
    (generate_batch clock0 (SignalGenerator.init 0) [a90] 0).1.length = 1 ∧
    ((runAllSignals clock0 (SignalGenerator.init 0) [a90]).filter
      (fun s => decide (s.action = "TRADE"))).take ((0 : ℤ)).toNat = [] := by
  have hge : calculate_confidence a90 ≥ (SignalGenerator.init 0).min_confidence := by
    rw [a90_conf]; norm_num [SignalGenerator.init]
  have hact := (generate_signal_of_ge clock0 (SignalGenerator.init 0) a90 hge).1
  constructor
  · simp [generate_batch, generate_batch_aux, hact]
  · simp

/-- C7 amended: for every cap of at least 1, batch generation returns
exactly the first cap TRADE signals of the in-order generation sequence
(SKIPs are dropped and do not count); at cap ≤ 0 the source still returns
the first TRADE signal because the break test runs only after an append. -/
theorem c7_amended (clock : Clock) (st : SignalGenerator)
    (l : List OpportunityAnalysis) (cap : ℤ) (hcap : 1 ≤ cap) :
    (generate_batch clock st l cap).1 =
      ((runAllSignals clock st l).filter
        (fun s => decide (s.action = "TRADE"))).take cap.toNat := by
  have h := generate_batch_aux_eq_take clock l st cap 0 (by omega)
  simpa [generate_batch] using h

/-- Witness for C7 amended at a concrete batch of two analyses with cap 1. -/
theorem c7_witness :
    (1 : ℤ) ≤ 1 ∧
    (generate_batch clock0 (SignalGenerator.init 0) [a90, a90] 1).1 =
      ((runAllSignals clock0 (SignalGenerator.init 0) [a90, a90]).filter
        (fun s => decide (s.action = "TRADE"))).take (1 : ℤ).toNat :=
  ⟨le_refl 1, c7_amended clock0 (SignalGenerator.init 0) [a90, a90] 1 (le_refl 1)⟩

/-!  Lemmas about the scan and the sort. -/

lemma insert_by_score_perm (a : OpportunityAnalysis) (l : List OpportunityAnalysis) :
    (insert_by_score a l).Perm (a :: l) := by
  induction l with
  | nil => exact List.Perm.refl _
  | cons b rest ih =>
    simp only [insert_by_score]
    split_ifs
    · exact ((ih.cons b).trans (List.Perm.swap a b rest))
    · exact List.Perm.refl _

lemma sort_by_score_desc_perm (l : List OpportunityAnalysis) :
    (sort_by_score_desc l).Perm l := by
  induction l with
  | nil => exact List.Perm.refl _
  | cons a rest ih =>
    exact (insert_by_score_perm a (sort_by_score_desc rest)).trans (ih.cons a)

lemma mem_scan_score (days_until : String → ℤ) (markets : List Market)
    (min_score : ℤ) (a : OpportunityAnalysis)
    (h : a ∈ scan_opportunities days_until markets min_score) :
    (min_score : ℚ) ≤ a.opportunity_score := by
  rw [scan_opportunities] at h
  have h2 := (sort_by_score_desc_perm _).mem_iff.mp h
  have h3 := List.mem_filter.mp h2
  exact of_decide_eq_true h3.2

lemma mem_scan_analyzed (days_until : String → ℤ) (markets : List Market)
    (min_score : ℤ) (a : OpportunityAnalysis)
    (h : a ∈ scan_opportunities days_until markets min_score) :
    ∃ m ∈ markets, a = analyze_market days_until m := by
  rw [scan_opportunities] at h
  have h2 := (sort_by_score_desc_perm _).mem_iff.mp h
  have h3 := (List.mem_filter.mp h2).1
  obtain ⟨m, hm, hma⟩ := List.mem_map.mp h3
  exact ⟨m, hm, hma.symm⟩

lemma scan_m90 (min_score : ℤ) (h : (min_score : ℚ) ≤ 90) :
    scan_opportunities d30 [m90] min_score = [a90] := by
  have hs : ((min_score : ℤ) : ℚ) ≤ a90.opportunity_score := by
    rw [a90_eq]
    simpa [a90val] using h
  show sort_by_score_desc (List.filter _ [analyze_market d30 m90]) = [a90]
  rw [show analyze_market d30 m90 = a90 from rfl]
  simp only [List.filter, decide_eq_true hs]
  rfl

lemma generate_batch_len_le (clock : Clock) (st : SignalGenerator)
    (l : List OpportunityAnalysis) (cap : ℤ) (hcap : 1 ≤ cap) :
    ((generate_batch clock st l cap).1.length : ℤ) ≤ cap := by
  have h := generate_batch_aux_eq_take clock l st cap 0 (by omega)
  rw [generate_batch, h]
  have := List.length_take_le (cap - (0 : Nat)).toNat
    ((runAllSignals clock st l).filter (fun s => decide (s.action = "TRADE")))
  have h2 : ((cap - ((0 : Nat) : ℤ)).toNat : ℤ) = cap := by push_cast; omega
  omega

lemma generate_batch_len_le_one (clock : Clock) (st : SignalGenerator)
    (l : List OpportunityAnalysis) (cap : ℤ) (hcap : cap ≤ 1) :
    (generate_batch clock st l cap).1.length ≤ 1 := by
  rw [generate_batch]
  exact generate_batch_aux_len_le_one clock l st cap 0 (by push_cast; omega)

lemma runAllSignals_length (clock : Clock) :
    ∀ (l : List OpportunityAnalysis) (st : SignalGenerator),
      (runAllSignals clock st l).length = l.length := by
  intro l
  induction l with
  | nil => intro st; rfl
  | cons a rest ih => intro st; simp [runAllSignals, ih]

lemma generate_signal_snd_minconf (clock : Clock) (st : SignalGenerator)
    (a : OpportunityAnalysis) :
    (generate_signal clock st a).2.min_confidence = st.min_confidence := by
  rw [generate_signal_snd]

lemma runAllSignals_trade (clock : Clock) :
    ∀ (l : List OpportunityAnalysis) (st : SignalGenerator),
      (∀ a ∈ l, st.min_confidence ≤ calculate_confidence a) →
      ∀ s ∈ runAllSignals clock st l, s.action = "TRADE" := by
  intro l
  induction l with
  | nil => intro st _ s hs; simp [runAllSignals] at hs
  | cons a rest ih =>
    intro st hconf s hs
    simp only [runAllSignals, List.mem_cons] at hs
    rcases hs with hs | hs
    · rw [hs]
      exact (generate_signal_of_ge clock st a (hconf a (by simp))).1
    · refine ih (generate_signal clock st a).2 ?_ s hs
      intro a' ha'
      rw [generate_signal_snd_minconf]
      exact hconf a' (by simp [ha'])

lemma insert_replicate (n : Nat) (a : OpportunityAnalysis) :
    insert_by_score a (List.replicate n a) = List.replicate (n + 1) a := by
  cases n with
  | zero => rfl
  | succ n =>
    simp only [List.replicate_succ, insert_by_score]
    rw [if_neg (lt_irrefl _)]

lemma sort_replicate (n : Nat) (a : OpportunityAnalysis) :
    sort_by_score_desc (List.replicate n a) = List.replicate n a := by
  induction n with
  | zero => rfl
  | succ n ih =>
    rw [List.replicate_succ, sort_by_score_desc, ih, insert_replicate,
      List.replicate_succ]

lemma scan_replicate_m90 (n : Nat) (min_score : ℤ) (h : (min_score : ℚ) ≤ 90) :
    scan_opportunities d30 (List.replicate n m90) min_score =
      List.replicate n a90 := by
  have hs : ((min_score : ℤ) : ℚ) ≤ a90.opportunity_score := by
    rw [a90_eq]
    simpa [a90val] using h
  rw [scan_opportunities, List.map_replicate,
    show analyze_market d30 m90 = a90 from rfl,
    List.filter_eq_self.mpr (by intro b hb; rw [List.eq_of_mem_replicate hb]; exact decide_eq_true hs),
    sort_replicate]

/-- C6 counterexample: a premium batch request with count = 0 still returns
one signal (the break test runs after the first append), so "at most
min(requested, 10) = 0 signals" fails. -/
theorem c6_counterexample :
    (get_batch_signals clock0 d30 [m90] ⟨none, some 0⟩ "premium").length = 1 ∧
    ¬ ((get_batch_signals clock0 d30 [m90] ⟨none, some 0⟩ "premium").length : ℤ) ≤
        min (0 : ℤ) 10 := by
  have hscan : scan_opportunities d30 [m90] (tier_min_score "premium") = [a90] := by
    rw [show tier_min_score "premium" = 60 from rfl]
    exact scan_m90 60 (by norm_num)
  have hge : calculate_confidence a90 ≥ (SignalGenerator.init (tier_min_score "premium")).min_confidence := by
    have h60 : tier_min_score "premium" = 60 := rfl
    rw [a90_conf, h60]
    norm_num [SignalGenerator.init]
  have hact := (generate_signal_of_ge clock0 _ a90 hge).1
  have hclamp : clamp_count "premium" ((some (0:ℤ)).getD 5) = 0 := by
    simp [clamp_count]
  constructor
  · simp only [get_batch_signals, hclamp, hscan]
    simp [generate_batch, generate_batch_aux, hact]
  · simp only [get_batch_signals, hclamp, hscan]
    simp [generate_batch, generate_batch_aux, hact]

/-- C6 amended: the tier clamp behaves as claimed for free (at most 1 signal
for every requested count) and pro (the requested count is passed through
unreduced, and 20 identical qualifying markets do yield 20 signals at
count 20); for premium the bound at most min(requested, 10) holds for every
requested count ≥ 1 (at count ≤ 0 one signal can still be returned, as the
counterexample shows). -/
theorem c6_amended :
    (∀ (clock : Clock) (days_until : String → ℤ) (markets : List Market)
        (params : Params),
      (get_batch_signals clock days_until markets params "free").length ≤ 1) ∧
    (∀ (clock : Clock) (days_until : String → ℤ) (markets : List Market)
        (mid : Option String) (count : ℤ), 1 ≤ count →
      ((get_batch_signals clock days_until markets ⟨mid, some count⟩ "premium").length : ℤ) ≤
        min count 10) ∧
    (∀ count : ℤ, clamp_count "pro" count = count) ∧
    (∀ clock : Clock,
      (get_batch_signals clock d30 (List.replicate 20 m90) ⟨none, some 20⟩ "pro").length = 20) := by
  refine ⟨?_, ?_, ?_, ?_⟩
  · intro clock days_until markets params
    simp only [get_batch_signals]
    refine generate_batch_len_le_one clock _ _ _ ?_
    simp only [clamp_count, if_pos rfl]
    exact min_le_right _ _
  · intro clock days_until markets mid count hcount
    simp only [get_batch_signals]
    have hclamp : clamp_count "premium" ((some count).getD 5) = min count 10 := by
      simp [clamp_count]
    rw [hclamp]
    exact generate_batch_len_le clock _ _ _ (le_min hcount (by norm_num))
  · intro count
    simp [clamp_count]
  · intro clock
    have hscan : scan_opportunities d30 (List.replicate 20 m90) (tier_min_score "pro") =
        List.replicate 20 a90 := by
      rw [show tier_min_score "pro" = 70 from rfl]
      exact scan_replicate_m90 20 70 (by norm_num)
    have hclamp : clamp_count "pro" ((some (20:ℤ)).getD 5) = 20 := by
      simp [clamp_count]
    simp only [get_batch_signals, hclamp, hscan]
    have htake := generate_batch_aux_eq_take clock (List.replicate 20 a90)
      (SignalGenerator.init (tier_min_score "pro")) 20 0 (by norm_num)
    rw [generate_batch, htake]
    have htrade : ∀ s ∈ runAllSignals clock (SignalGenerator.init (tier_min_score "pro"))
        (List.replicate 20 a90), s.action = "TRADE" := by
      refine runAllSignals_trade clock _ _ ?_
      intro a ha
      rw [List.eq_of_mem_replicate ha, a90_conf]
      norm_num [SignalGenerator.init, tier_min_score]
    rw [List.filter_eq_self.mpr (fun s hs => decide_eq_true (htrade s hs))]
    rw [List.length_take, runAllSignals_length]
    rfl

/-- Witness for C6 amended: the premium bound applied at requested count 5. -/
theorem c6_witness :
    ((get_batch_signals clock0 d30 [m90] ⟨none, some 5⟩ "premium").length : ℤ) ≤
      min (5 : ℤ) 10 :=
  c6_amended.2.1 clock0 d30 [m90] none 5 (by norm_num)

lemma tier_min_score_nonneg (tier : String) :
    0 ≤ tier_min_score tier ∧ tier_min_score tier ≤ 100 := by
  rw [tier_min_score]
  split_ifs <;> norm_num

lemma confidence_ge (a : OpportunityAnalysis) (mc : ℤ) (h0 : 0 ≤ mc)
    (h100 : mc ≤ 100) (hs : (mc : ℚ) ≤ a.opportunity_score) :
    mc ≤ calculate_confidence a := by
  simp only [calculate_confidence]
  refine le_min ?_ h100
  have harg : (mc : ℚ) ≤
      (if a.liquidity > 500000 then
        (if a.volume > 5000000 then a.opportunity_score + 10
          else if a.volume > 2000000 then a.opportunity_score + 5
          else a.opportunity_score) + 10
      else if a.liquidity > 200000 then
        (if a.volume > 5000000 then a.opportunity_score + 10
          else if a.volume > 2000000 then a.opportunity_score + 5
          else a.opportunity_score) + 5
      else
        if a.volume > 5000000 then a.opportunity_score + 10
        else if a.volume > 2000000 then a.opportunity_score + 5
        else a.opportunity_score) := by
    split_ifs <;> linarith
  have hpos : (0 : ℚ) ≤ _ := le_trans (by exact_mod_cast h0) harg
  rw [pyInt, if_pos hpos]
  exact Int.le_floor.mpr harg

/-- C9: every signal the service hands back is a TRADE, for every market
list, request parameters, tier string and clock: (i) a successful get_signal
result has action TRADE; (ii) every signal in a get_batch result has action
TRADE; (iii) the SKIP branch is unreachable for any opportunity passing the
scan filter when the generator's min_confidence is the tier's min score,
because the confidence is at least the floor of the score, the bonuses are
non-negative, and the clamp at 100 stays above the min score (at most 70). -/
theorem c9_trade_only (clock : Clock) (days_until : String → ℤ)
    (markets : List Market) (params : Params) (tier : String) :
    (∀ s, get_signal_core clock days_until markets params tier = Except.ok s →
      s.action = "TRADE") ∧
    (∀ s ∈ get_batch_signals clock days_until markets params tier,
      s.action = "TRADE") ∧
    (∀ a ∈ scan_opportunities days_until markets (tier_min_score tier),
      ∀ st : SignalGenerator, st.min_confidence = tier_min_score tier →
      (generate_signal clock st a).1.action = "TRADE") := by
  have hscan_trade : ∀ a ∈ scan_opportunities days_until markets (tier_min_score tier),
      ∀ st : SignalGenerator, st.min_confidence = tier_min_score tier →
      (generate_signal clock st a).1.action = "TRADE" := by
    intro a ha st hst
    have hscore := mem_scan_score days_until markets (tier_min_score tier) a ha
    have hb := tier_min_score_nonneg tier
    have hconf := confidence_ge a (tier_min_score tier) hb.1 hb.2 hscore
    exact (generate_signal_of_ge clock st a (by rw [hst]; exact hconf)).1
  refine ⟨?_, ?_, hscan_trade⟩
  · intro s h
    simp only [get_signal_core] at h
    by_cases hmid : params.market_id.isSome
    · rw [if_pos hmid] at h
      exact absurd h (by simp)
    · rw [if_neg hmid] at h
      cases hscan : scan_opportunities days_until markets (tier_min_score tier) with
      | nil =>
        rw [hscan] at h
        exact absurd h (by simp)
      | cons opp rest =>
        rw [hscan] at h
        have hs : s =
            (generate_signal clock (SignalGenerator.init (tier_min_score tier)) opp).1 := by
          injection h with h2
          exact h2.symm
        rw [hs]
        exact hscan_trade opp (by rw [hscan]; simp) _ rfl
  · intro s hs
    exact generate_batch_aux_trade clock _ _ _ _ s hs

lemma get_signal_core_m90 :
    get_signal_core clock0 d30 [m90] ⟨none, none⟩ "premium" = Except.ok s90 := by
  simp only [get_signal_core]
  rw [show tier_min_score "premium" = 60 from rfl, scan_m90 60 (by norm_num)]
  rfl

/-- Witness for C9: the premium single-signal flow over the concrete market
m90 succeeds and the returned signal is a TRADE. -/
theorem c9_witness :
    get_signal_core clock0 d30 [m90] ⟨none, none⟩ "premium" = Except.ok s90 ∧
    s90.action = "TRADE" :=
  ⟨get_signal_core_m90,
    (c9_trade_only clock0 d30 [m90] ⟨none, none⟩ "premium").1 s90 get_signal_core_m90⟩

/-!  The id-sequencing invariant of the signals_generated log. -/

/-- Every entry of the log carries the id formed from its own position. -/
def GoodLog (clock : Clock) (log : List Signal) : Prop :=
  ∀ i (h : i < log.length), (log[i]).signal_id = generate_id (clock i).1 i

lemma goodLog_step (clock : Clock) (st : SignalGenerator) (a : OpportunityAnalysis)
    (h : GoodLog clock st.signals_generated) :
    GoodLog clock (generate_signal clock st a).2.signals_generated := by
  rw [generate_signal_snd]
  intro i hi
  simp only [List.length_append, List.length_singleton] at hi
  by_cases hlt : i < st.signals_generated.length
  · rw [List.getElem_append_left hlt]
    exact h i hlt
  · have hieq : i = st.signals_generated.length := by omega
    subst hieq
    simpa using generate_signal_id clock st a

lemma runSignals_goodLog (clock : Clock) :
    ∀ (l : List OpportunityAnalysis) (st : SignalGenerator),
      GoodLog clock st.signals_generated →
      GoodLog clock (runSignals clock st l).signals_generated := by
  intro l
  induction l with
  | nil => intro st h; exact h
  | cons a rest ih =>
    intro st h
    exact ih (generate_signal clock st a).2 (goodLog_step clock st a h)

lemma goodLog_pairwise (clock : Clock) (log : List Signal)
    (h : GoodLog clock log) (h14 : ∀ n, ((clock n).1).length = 14) :
    (log.map (fun s => s.signal_id)).Pairwise (fun x y => x ≠ y) := by
  rw [List.pairwise_iff_getElem]
  intro i j hi hj hij
  rw [List.length_map] at hi hj
  rw [List.getElem_map, List.getElem_map]
  intro heq
  have hid_i := h i hi
  have hid_j := h j hj
  rw [hid_i, hid_j] at heq
  have := generate_id_inj (clock i).1 (clock j).1 i j (by rw [h14, h14]) heq
  omega

/-- C10 counterexample: a batch over two TRADE-yielding analyses with cap 1
stops after the first, so the log grows by 1, not by the number of analyses
(2): the early break means a batch over n analyses need not grow the log by
n. -/
theorem c10_counterexample :
    (generate_batch clock0 (SignalGenerator.init 0) [a90, a90] 1).2.signals_generated.length = 1 ∧
    ¬ (generate_batch clock0 (SignalGenerator.init 0) [a90, a90] 1).2.signals_generated.length = 2 := by
  have hge : calculate_confidence a90 ≥ (SignalGenerator.init 0).min_confidence := by
    rw [a90_conf]
    norm_num [SignalGenerator.init]
  have hact := (generate_signal_of_ge clock0 (SignalGenerator.init 0) a90 hge).1
  have hbatch : generate_batch clock0 (SignalGenerator.init 0) [a90, a90] 1 =
      ([(generate_signal clock0 (SignalGenerator.init 0) a90).1],
        (generate_signal clock0 (SignalGenerator.init 0) a90).2) := by
    simp [generate_batch, generate_batch_aux, hact]
  rw [hbatch, generate_signal_snd]
  simp [SignalGenerator.init]

/-- C10 amended: each generate_signal call appends exactly one signal to the
log; the appended signal's id is formed from the log length before the
append; within one generator instance the ids are pairwise distinct (for
14-character timestamp strings, the strftime format's fixed width); and a
batch grows the log by the full number n of analyses only when the cap was
never hit (fewer kept signals than the cap) — with an early break the log
grows by the number of analyses actually processed, as the counterexample
shows. -/
theorem c10_amended :
    (∀ (clock : Clock) (st : SignalGenerator) (a : OpportunityAnalysis),
      (generate_signal clock st a).2.signals_generated =
        st.signals_generated ++ [(generate_signal clock st a).1]) ∧
    (∀ (clock : Clock) (st : SignalGenerator) (a : OpportunityAnalysis),
      (generate_signal clock st a).1.signal_id =
        generate_id (clock st.signals_generated.length).1
          st.signals_generated.length) ∧
    (∀ clock : Clock, (∀ n, ((clock n).1).length = 14) →
      ∀ (c : ℤ) (l : List OpportunityAnalysis),
        ((runSignals clock (SignalGenerator.init c) l).signals_generated.map
          (fun s => s.signal_id)).Pairwise (fun x y => x ≠ y)) ∧
    (∀ (clock : Clock) (st : SignalGenerator) (l : List OpportunityAnalysis)
        (cap : ℤ),
      ((generate_batch clock st l cap).1.length : ℤ) < cap →
      (generate_batch clock st l cap).2.signals_generated.length =
        st.signals_generated.length + l.length) := by
  refine ⟨?_, ?_, ?_, ?_⟩
  · intro clock st a
    rw [generate_signal_snd]
  · intro clock st a
    exact generate_signal_id clock st a
  · intro clock h14 c l
    refine goodLog_pairwise clock _ ?_ h14
    refine runSignals_goodLog clock l (SignalGenerator.init c) ?_
    intro i hi
    simp [SignalGenerator.init] at hi
  · intro clock st l cap hlen
    rw [generate_batch] at hlen ⊢
    exact generate_batch_aux_log clock l st cap 0 (by push_cast at hlen ⊢; omega)

/-- Witness for C10 amended: two calls on one instance under the fixed-width
clock yield pairwise distinct ids. -/
theorem c10_witness :
    ((runSignals clock0 (SignalGenerator.init 60) [a90, a_low]).signals_generated.map
      (fun s => s.signal_id)).Pairwise (fun x y => x ≠ y) :=
  c10_amended.2.2.1 clock0 (fun _ => rfl) 60 [a90, a_low]

/-- C2 counterexample: with no markets at all (so nothing clears the
premium threshold), the batch flow returns the success payload with count 0
and an empty signals list — exactly the empty success the claim says cannot
happen — and no "error" key is present. -/
theorem c2_counterexample :
    get_batch_endpoint clock0 d30 [] ⟨none, none⟩ "premium" =
      [("count", JVal.int 0), ("signals", JVal.list [])] ∧
    (get_batch_endpoint clock0 d30 [] ⟨none, none⟩ "premium").map Prod.fst =
      ["count", "signals"] :=
  ⟨rfl, rfl⟩

/-- C2 amended: when the scan at the tier's min score is empty, the
single-signal flow returns the explicit error payload, but the batch flow
returns an empty success (count 0, empty signals list) — only get_signal has
the no-opportunities error path. -/
theorem c2_amended (clock : Clock) (days_until : String → ℤ)
    (markets : List Market) (params : Params) (tier : String)
    (hmid : params.market_id = none)
    (hscan : scan_opportunities days_until markets (tier_min_score tier) = []) :
    get_signal_endpoint clock days_until markets params tier =
      [("error", JVal.str "No opportunities found")] ∧
    get_batch_endpoint clock days_until markets params tier =
      [("count", JVal.int 0), ("signals", JVal.list [])] := by
  constructor
  · simp only [get_signal_endpoint, get_signal_core, hmid, Option.isSome_none,
      Bool.false_eq_true, if_false, hscan]
  · simp only [get_batch_endpoint, get_batch_signals, hscan, generate_batch,
      generate_batch_aux]
    rfl

/-- Witness for C2 amended at the empty market list. -/
theorem c2_witness :
    get_signal_endpoint clock0 d30 [] ⟨none, none⟩ "premium" =
      [("error", JVal.str "No opportunities found")] ∧
    get_batch_endpoint clock0 d30 [] ⟨none, none⟩ "premium" =
      [("count", JVal.int 0), ("signals", JVal.list [])] :=
  c2_amended clock0 d30 [] ⟨none, none⟩ "premium" rfl rfl

/-- C5: a successful free-tier get_signal response consists of exactly the
five keys signal_id, market_question, action, side, confidence (in that
order, with the values taken from the generated signal), and a successful
premium or pro response is the full signal dict. -/
theorem c5_tier_redaction (clock : Clock) (days_until : String → ℤ)
    (markets : List Market) (params : Params) :
    (∀ s, get_signal_core clock days_until markets params "free" = Except.ok s →
      get_signal_endpoint clock days_until markets params "free" =
        [("signal_id", JVal.str s.signal_id),
         ("market_question", jsonOptStr s.market_question),
         ("action", JVal.str s.action),
         ("side", jsonOptStr s.side),
         ("confidence", JVal.int s.confidence)] ∧
      (get_signal_endpoint clock days_until markets params "free").map Prod.fst =
        ["signal_id", "market_question", "action", "side", "confidence"]) ∧
    (∀ tier, tier = "premium" ∨ tier = "pro" →
      ∀ s, get_signal_core clock days_until markets params tier = Except.ok s →
      get_signal_endpoint clock days_until markets params tier = signal_fields s) := by
  constructor
  · intro s h
    simp only [get_signal_endpoint, h]
    exact ⟨rfl, rfl⟩
  · intro tier htier s h
    simp only [get_signal_endpoint, h]
    rcases htier with htier | htier <;> subst htier <;>
      rw [if_neg (by decide)]

/-- The signal generated by the free-tier flow over the single market m90. -/
def s_free : Signal := (generate_signal clock0 (SignalGenerator.init 50) a90).1

lemma get_signal_core_m90_free :
    get_signal_core clock0 d30 [m90] ⟨none, none⟩ "free" = Except.ok s_free := by
  simp only [get_signal_core]
  rw [show tier_min_score "free" = 50 from rfl, scan_m90 50 (by norm_num)]
  rfl

/-- Witness for C5: the free-tier flow over m90 succeeds and is redacted to
exactly the five claimed keys. -/
theorem c5_witness :
    get_signal_core clock0 d30 [m90] ⟨none, none⟩ "free" = Except.ok s_free ∧
    (get_signal_endpoint clock0 d30 [m90] ⟨none, none⟩ "free" =
        [("signal_id", JVal.str s_free.signal_id),
         ("market_question", jsonOptStr s_free.market_question),
         ("action", JVal.str s_free.action),
         ("side", jsonOptStr s_free.side),
         ("confidence", JVal.int s_free.confidence)] ∧
      (get_signal_endpoint clock0 d30 [m90] ⟨none, none⟩ "free").map Prod.fst =
        ["signal_id", "market_question", "action", "side", "confidence"]) :=
  ⟨get_signal_core_m90_free,
    (c5_tier_redaction clock0 d30 [m90] ⟨none, none⟩).1 s_free get_signal_core_m90_free⟩
